import Mathlib

/-!
# Minix service worker: network first, cache fallback

A shallow embedding of `web/service-worker.js` and the properties of its
event handlers (install, activate, fetch, message).

The host platform (network, `CacheStorage`, the worker's own lifecycle calls) is
modelled by an explicit world state that the handlers thread through:

* `World.caches` is the origin's `CacheStorage`: the named stores in creation
  order, each an ordered list of (request key, response) entries;
* `World.log` is the sequence of host calls a handler has issued so far.

What the platform answers is fixed by an `Env`: the outcome of `fetch` for each
request and which storage operations reject.  A handler body runs without
interleaving with other handlers, and the world it leaves is the world once the
calls it started have settled, awaited or not.

Logging (`console.log`, `console.error`) has no effect on the world and is left out.
Request headers and `Vary` matching are not modelled: a stored entry is found by the
URL of a `GET` request.
-/

namespace Minix

/-! ## Constants of the script -/

def CACHE_VERSION : String := "1.0.0"

def CACHE_NAME : String := "minix-cache-v" ++ CACHE_VERSION

def OFFLINE_URL : String := "/"

def PRECACHE_URLS : List String :=
  ["/", "/index.html", "/manifest.json", "/favicon.png"]

/-! ## Data model -/

/-- A parsed URL, as `new URL(request.url)` exposes it.  `protocol` carries the
trailing colon (`"https:"`), `search` and `hash` their leading `?` and `#`. -/
structure URL where
  protocol : String
  host : String
  pathname : String
  search : String
  hash : String
  deriving DecidableEq, Repr

/-- The value of `url.origin` for a URL with a host: scheme, `//`, host and port. -/
def URL.origin (u : URL) : String := u.protocol ++ "//" ++ u.host

/-- The serialised URL. -/
def URL.href (u : URL) : String := u.origin ++ u.pathname ++ u.search ++ u.hash

/-- An intercepted request: method, URL and mode (`"navigate"`, `"cors"`, ...). -/
structure Request where
  method : String
  url : URL
  mode : String
  deriving DecidableEq, Repr

/-- The key under which the Cache API files and finds a GET request: its URL
without the fragment. -/
def Request.key (r : Request) : String := r.url.origin ++ r.url.pathname ++ r.url.search

/-- A response, and equally the snapshot of it that a store keeps. -/
structure Response where
  status : Nat
  statusText : String
  headers : List (String × String)
  body : String
  deriving DecidableEq, Repr

/-- The value of `response.clone()`: an independent copy with the same status, headers
and bytes. -/
def Response.clone (r : Response) : Response :=
  { status := r.status, statusText := r.statusText, headers := r.headers, body := r.body }

/-- Case-insensitive header lookup, `response.headers.get(name)`. -/
def Response.header (r : Response) (name : String) : Option String :=
  (r.headers.find? (fun h => h.1.toLower == name.toLower)).map (fun h => h.2)

/-- One named store: entries in insertion order. -/
abbrev Cache := List (String × Response)

/-- The origin's cache storage: named stores in creation order. -/
abbrev CacheStorage := List (String × Cache)

/-- The entry filed under `key`, as `cache.match` finds it. -/
def entryGet : Cache → String → Option Response
  | [], _ => none
  | (k, v) :: rest, key => if k = key then some v else entryGet rest key

/-- The effect of `cache.put` on the entries: what matched the key is removed, the
new pair is added. -/
def entryPut (c : Cache) (key : String) (r : Response) : Cache :=
  c.filter (fun e => e.1 ≠ key) ++ [(key, r)]

/-- The names `caches.keys()` lists. -/
def storageKeys (s : CacheStorage) : List String := s.map (fun p => p.1)

/-- Is there a store of that name. -/
def storageHas (s : CacheStorage) (name : String) : Bool := s.any (fun p => p.1 == name)

/-- The named store, when present. -/
def storageGet : CacheStorage → String → Option Cache
  | [], _ => none
  | (n, c) :: rest, name => if n = name then some c else storageGet rest name

/-- The effect of `caches.open(name)`: the store is created empty when absent. -/
def storageOpen (s : CacheStorage) (name : String) : CacheStorage :=
  if storageHas s name then s else s ++ [(name, [])]

/-- The effect of `cache.put` through the handle of the store `name`. -/
def storagePut (s : CacheStorage) (name key : String) (r : Response) : CacheStorage :=
  s.map (fun p => if p.1 = name then (p.1, entryPut p.2 key r) else p)

/-- The effect of `caches.delete(name)`. -/
def storageDelete (s : CacheStorage) (name : String) : CacheStorage :=
  s.filter (fun p => p.1 ≠ name)

/-- The answer of `caches.match(request)`: the stores are searched in creation order
and the first entry found is the answer. -/
def storageMatch : CacheStorage → String → Option Response
  | [], _ => none
  | (_, c) :: rest, key =>
    match entryGet c key with
    | some r => some r
    | none => storageMatch rest key

/-- The entry filed under `key` in the store `name`; `none` when the store or the entry is
absent. -/
def storageEntry (s : CacheStorage) (name key : String) : Option Response :=
  match storageGet s name with
  | some c => entryGet c key
  | none => none

/-! ## Host calls and the world -/

/-- The calls a handler makes to the platform. -/
inductive HostCall where
  | fetch (key : String)
  | cachesOpen (name : String)
  | cachePut (name key : String)
  | cacheAddAll (name : String) (urls : List String)
  | cachesMatch (key : String)
  | cachesKeys
  | cachesDelete (name : String)
  | skipWaiting
  | clientsClaim
  deriving DecidableEq, Repr

/-- The state a handler runs in. -/
structure World where
  caches : CacheStorage
  log : List HostCall
  deriving DecidableEq, Repr

abbrev JSError := String

/-- What the platform answers. -/
structure Env where
  /-- The worker's own `location`. -/
  location : URL
  /-- The outcome of `fetch(request)`: a response of any status, or `none` when the
  fetch rejects (transport failure). -/
  network : Request → Option Response
  /-- Does `caches.open(name)` reject. -/
  openFails : String → Bool
  /-- Does `cache.put` into the store `name` under `key` reject. -/
  putFails : String → String → Bool
  /-- Does `caches.delete(name)` reject. -/
  deleteFails : String → Bool

/-- A handler body: it reads and changes the world and either yields a value or throws.
What it did before throwing stays done. -/
def Host (α : Type) : Type := World → Except JSError α × World

/-- Run a handler body in a world. -/
def Host.run {α : Type} (m : Host α) (w : World) : Except JSError α × World := m w

/-- A value, with no effect. -/
def Host.pure {α : Type} (a : α) : Host α := fun w => (Except.ok a, w)

/-- Sequencing of `await`ed steps: a step that throws ends the sequence. -/
def Host.bind {α β : Type} (m : Host α) (f : α → Host β) : Host β := fun w =>
  match m w with
  | (Except.ok a, w1) => f a w1
  | (Except.error e, w1) => (Except.error e, w1)

instance : Monad Host where
  pure := Host.pure
  bind := Host.bind

/-- The statement `throw e`. -/
def Host.throw {α : Type} (e : JSError) : Host α := fun w => (Except.error e, w)

/-- The statement `try { body } catch (error) { handler }`. -/
def Host.tryCatch {α : Type} (body : Host α) (handler : JSError → Host α) : Host α := fun w =>
  match body w with
  | (Except.ok a, w1) => (Except.ok a, w1)
  | (Except.error e, w1) => handler e w1

/-- A call whose promise is neither awaited nor given a rejection handler: its effect
takes place, its rejection reaches nobody. -/
def Host.detach {α : Type} (m : Host α) : Host Unit := fun w =>
  match m w with
  | (_, w1) => (Except.ok (), w1)

/-- The promise of an `async` function that was started, once settled: a body that
throws makes a rejected promise, not a throwing caller. -/
def Host.settle {α : Type} (m : Host α) : Host (Except JSError α) := fun w =>
  match m w with
  | (r, w1) => (Except.ok r, w1)

/-- Note a call in the log. -/
def record (c : HostCall) : Host Unit := fun w =>
  (Except.ok (), { w with log := w.log ++ [c] })

/-- Read the cache storage. -/
def getCaches : Host CacheStorage := fun w => (Except.ok w.caches, w)

/-- Change the cache storage. -/
def modifyCaches (f : CacheStorage → CacheStorage) : Host Unit := fun w =>
  (Except.ok (), { w with caches := f w.caches })

/-- The call `Promise.all(promises)`: every call of the list has been started, so each
takes its effect; the result rejects when one of them rejects. -/
def Host.promiseAll {α : Type} : List (Host α) → Host (List α)
  | [] => Host.pure []
  | m :: ms => fun w =>
    match m w with
    | (r, w1) =>
      match Host.promiseAll ms w1 with
      | (rs, w2) =>
        (match r, rs with
          | Except.ok a, Except.ok as => Except.ok (a :: as)
          | Except.error e, _ => Except.error e
          | Except.ok _, Except.error e => Except.error e, w2)

/-! ## Platform calls -/

/-- The call `fetch(request)`: one network attempt. -/
def fetch (env : Env) (request : Request) : Host Response := do
  record (HostCall.fetch request.key)
  match env.network request with
  | some r => pure r
  | none => Host.throw "TypeError: Failed to fetch"

/-- The call `caches.open(name)`: yields the handle of the store, created when absent. -/
def cachesOpen (env : Env) (name : String) : Host String := do
  record (HostCall.cachesOpen name)
  if env.openFails name then
    Host.throw "storage unavailable"
  else do
    modifyCaches (fun s => storageOpen s name)
    pure name

/-- The call `cache.put(request, response)` on the handle of the store `name`. -/
def cachePut (env : Env) (name key : String) (r : Response) : Host Unit := do
  record (HostCall.cachePut name key)
  if env.putFails name key then
    Host.throw "put failed"
  else
    modifyCaches (fun s => storagePut s name key r)

/-- The call `caches.match(request)`, on the whole cache storage. -/
def cachesMatch (key : String) : Host (Option Response) := do
  record (HostCall.cachesMatch key)
  let s ← getCaches
  pure (storageMatch s key)

/-- The call `caches.keys()`. -/
def cachesKeys : Host (List String) := do
  record HostCall.cachesKeys
  let s ← getCaches
  pure (storageKeys s)

/-- The call `caches.delete(name)`: resolves to whether the store existed. -/
def cachesDelete (env : Env) (name : String) : Host Bool := do
  record (HostCall.cachesDelete name)
  if env.deleteFails name then
    Host.throw "delete failed"
  else do
    let s ← getCaches
    modifyCaches (fun t => storageDelete t name)
    pure (storageHas s name)

/-- The request that a path of the worker's own origin stands for. -/
def localRequest (env : Env) (path : String) : Request :=
  { method := "GET",
    url := { protocol := env.location.protocol, host := env.location.host,
             pathname := path, search := "", hash := "" },
    mode := "cors" }

/-- What `cache.addAll(urls)` fetches, the paths being resolved against the worker's
location: for each URL its key and the outcome of its fetch. -/
def addAllFetched (env : Env) (urls : List String) : List (String × Option Response) :=
  urls.map (fun u => ((localRequest env u).key, env.network (localRequest env u)))

/-- Does `cache.addAll(urls)` on the store `name` go through: every fetch resolves with an ok
status (200 to 299) and every entry can be stored. -/
def addAllOk (env : Env) (name : String) (urls : List String) : Bool :=
  (addAllFetched env urls).all (fun p =>
    match p.2 with
    | some r => decide (200 ≤ r.status ∧ r.status ≤ 299) && !(env.putFails name p.1)
    | none => false)

/-- The call `cache.addAll(urls)` on the handle of the store `name`: all entries are stored,
or the call rejects and stores nothing. -/
def cacheAddAll (env : Env) (name : String) (urls : List String) : Host Unit := do
  record (HostCall.cacheAddAll name urls)
  if addAllOk env name urls then
    modifyCaches (fun s => (addAllFetched env urls).foldl (fun t p =>
      match p.2 with
      | some r => storagePut t name p.1 r
      | none => t) s)
  else
    Host.throw "TypeError: Request failed"

/-- The call `self.skipWaiting()`. -/
def skipWaiting : Host Unit := record HostCall.skipWaiting

/-- The call `self.clients.claim()`. -/
def clientsClaim : Host Unit := record HostCall.clientsClaim

/-! ## Install -/

/-- The `install` listener; the value is the settled promise it hands to
`event.waitUntil`. -/
def onInstall (env : Env) : Host (Except JSError Unit) :=
  Host.settle (Host.tryCatch
    (do
      let cache ← cachesOpen env CACHE_NAME
      cacheAddAll env cache PRECACHE_URLS
      skipWaiting)
    (fun _error => pure ()))

/-! ## Activate -/

/-- The arrow function mapped over the store names: a name other than the current one
is deleted; for the current one the function returns `undefined`. -/
def deleteIfStale (env : Env) (cacheName : String) : Host (Option Bool) :=
  if cacheName ≠ CACHE_NAME then do
    let existed ← cachesDelete env cacheName
    pure (some existed)
  else
    pure none

/-- The `activate` listener; the value is the settled promise it hands to
`event.waitUntil`. -/
def onActivate (env : Env) : Host (Except JSError Unit) :=
  Host.settle (Host.tryCatch
    (do
      let cacheNames ← cachesKeys
      let _ ← Host.promiseAll (cacheNames.map (deleteIfStale env))
      clientsClaim)
    (fun _error => pure ()))

/-! ## Fetch -/

/-- The value of `protocol.startsWith('http')`. -/
def startsWithHttp (protocol : String) : Bool :=
  "http".toList.isPrefixOf protocol.toList

/-- How `JSON.stringify` writes one character of a string: the double quote (34) and the
backslash (92) are preceded by a backslash, the control characters have their short or
`u00` escapes, any other character stands for itself. -/
def jsonEscapeChar (c : Char) : List Char :=
  if c.toNat = 34 then [Char.ofNat 92, Char.ofNat 34]
  else if c.toNat = 92 then [Char.ofNat 92, Char.ofNat 92]
  else if c.toNat = 8 then [Char.ofNat 92, 'b']
  else if c.toNat = 12 then [Char.ofNat 92, 'f']
  else if c.toNat = 10 then [Char.ofNat 92, 'n']
  else if c.toNat = 13 then [Char.ofNat 92, 'r']
  else if c.toNat = 9 then [Char.ofNat 92, 't']
  else if c.toNat < 32 then
    [Char.ofNat 92, 'u', '0', '0', Nat.digitChar (c.toNat / 16), Nat.digitChar (c.toNat % 16)]
  else [c]

/-- The JSON text of a string value. -/
def jsonQuote (s : String) : String :=
  String.mk ([Char.ofNat 34] ++ (s.toList.map jsonEscapeChar).flatten ++ [Char.ofNat 34])

/-- The value of `JSON.stringify` on an object whose fields, in order, are strings. -/
def jsonStringify (fields : List (String × String)) : String :=
  "\x7b" ++ ",".intercalate (fields.map (fun f => jsonQuote f.1 ++ ":" ++ jsonQuote f.2)) ++ "\x7d"

/-- The response built when neither the network nor the storage has an answer. -/
def offlineResponse (url : URL) : Response :=
  { status := 503,
    statusText := "Service Unavailable",
    headers := [("Content-Type", "application/json")],
    body := jsonStringify [("error", "Offline - Resource not available"), ("url", url.pathname)] }

/-- The body of the `catch` block of the resolver: stored entry for the request, then, for
a navigation, the stored root page, then the built response. -/
def fallbackChain (env : Env) (request : Request) : Host Response := do
  let url := request.url
  let cachedResponse ← cachesMatch request.key
  match cachedResponse with
  | some cached => pure cached
  | none =>
    if request.mode = "navigate" then do
      let offline ← cachesMatch (localRequest env OFFLINE_URL).key
      match offline with
      | some page => pure page
      | none => pure (offlineResponse url)
    else
      pure (offlineResponse url)

/-- The body of the `async` function handed to `event.respondWith`: the `try` block, and
`fallbackChain` as its `catch` block.  A response that `fetch` resolves with is an object,
so the test `networkResponse && ...` is the test of its status. -/
def resolveRequest (env : Env) (request : Request) : Host Response :=
  let url := request.url
  Host.tryCatch
    (do
      let networkResponse ← fetch env request
      if networkResponse.status = 200 then do
        let cache ← cachesOpen env CACHE_NAME
        if url.origin = env.location.origin then
          Host.detach (cachePut env cache request.key networkResponse.clone)
      pure networkResponse)
    (fun _error => fallbackChain env request)

/-- The `fetch` listener; the value is `none` when the listener returns without calling
`event.respondWith`, and otherwise the settled promise it hands to `event.respondWith`. -/
def onFetch (env : Env) (request : Request) : Host (Option (Except JSError Response)) :=
  if request.method ≠ "GET" then
    pure none
  else if !startsWithHttp request.url.protocol then
    pure none
  else do
    let answer ← Host.settle (resolveRequest env request)
    pure (some answer)

/-! ## Message -/

/-- The values a message can carry. -/
inductive JSValue where
  | undefined
  | null
  | boolean (b : Bool)
  | number (n : Int)
  | string (s : String)
  | object (fields : List (String × JSValue))

/-- Truthiness, as `&&` tests it. -/
def JSValue.truthy : JSValue → Bool
  | JSValue.undefined => false
  | JSValue.null => false
  | JSValue.boolean b => b
  | JSValue.number n => decide (n ≠ 0)
  | JSValue.string s => decide (s ≠ "")
  | JSValue.object _ => true

/-- The first field of the given name. -/
def fieldGet : List (String × JSValue) → String → Option JSValue
  | [], _ => none
  | (k, v) :: rest, name => if k = name then some v else fieldGet rest name

/-- Property access `value.name`: it throws on `undefined` and `null`, and a value
without the property yields `undefined`. -/
def getProp (v : JSValue) (name : String) : Host JSValue :=
  match v with
  | JSValue.undefined => Host.throw "TypeError: Cannot read properties of undefined"
  | JSValue.null => Host.throw "TypeError: Cannot read properties of null"
  | JSValue.object fields =>
    match fieldGet fields name with
    | some x => pure x
    | none => pure JSValue.undefined
  | _ => pure JSValue.undefined

/-- The comparison `value === 'text'`. -/
def JSValue.isString : JSValue → String → Bool
  | JSValue.string s, t => decide (s = t)
  | _, _ => false

/-- The message is an object whose `type` field is the string `t`. -/
def JSValue.typeIs (data : JSValue) (t : String) : Bool :=
  match data with
  | JSValue.object fields =>
    match fieldGet fields "type" with
    | some (JSValue.string s) => decide (s = t)
    | _ => false
  | _ => false

/-- The test `event.data && event.data.type === t`. -/
def dataHasType (data : JSValue) (t : String) : Host Bool :=
  if data.truthy then do
    let ty ← getProp data "type"
    pure (ty.isString t)
  else
    pure false

/-- The `message` listener; the value is `none` when it does not call
`event.waitUntil`, and otherwise the settled promise it hands to it. -/
def onMessage (env : Env) (data : JSValue) : Host (Option (Except JSError Unit)) := do
  let skip ← dataHasType data "SKIP_WAITING"
  if skip then
    Host.detach skipWaiting
  let clear ← dataHasType data "CLEAR_CACHE"
  if clear then do
    let done ← Host.settle (do
      let _ ← cachesDelete env CACHE_NAME
      pure ())
    pure (some done)
  else
    pure none

/-! ## Scenarios

Concrete platforms, requests and storages at which the statements below are evaluated. -/

def appLocation : URL :=
  { protocol := "https:", host := "minix.app", pathname := "/service-worker.js",
    search := "", hash := "" }

def freshResponse : Response :=
  { status := 200, statusText := "OK", headers := [("content-type", "application/json")],
    body := "fresh" }

def staleResponse : Response :=
  { status := 200, statusText := "OK", headers := [("content-type", "application/json")],
    body := "stale" }

def rootPage : Response :=
  { status := 200, statusText := "OK", headers := [("content-type", "text/html")],
    body := "<html>Minix</html>" }

/-- A same-origin subresource request, with a query and a fragment. -/
def dataRequest : Request :=
  { method := "GET",
    url := { protocol := "https:", host := "minix.app", pathname := "/api/data",
             search := "?page=2", hash := "#top" },
    mode := "cors" }

/-- A same-origin page navigation. -/
def pageRequest : Request :=
  { method := "GET",
    url := { protocol := "https:", host := "minix.app", pathname := "/dashboard",
             search := "", hash := "" },
    mode := "navigate" }

/-- A request to another origin. -/
def cdnRequest : Request :=
  { method := "GET",
    url := { protocol := "https:", host := "cdn.example.com", pathname := "/lib.js",
             search := "", hash := "" },
    mode := "cors" }

/-- The network answers every request with `freshResponse`; no storage call rejects. -/
def online : Env :=
  { location := appLocation,
    network := fun _ => some freshResponse,
    openFails := fun _ => false,
    putFails := fun _ _ => false,
    deleteFails := fun _ => false }

/-- The network answers, `caches.open` rejects. -/
def onlineStorageDown : Env :=
  { location := appLocation,
    network := fun _ => some freshResponse,
    openFails := fun _ => true,
    putFails := fun _ _ => false,
    deleteFails := fun _ => false }

/-- Every fetch rejects; no storage call rejects. -/
def offline : Env :=
  { location := appLocation,
    network := fun _ => none,
    openFails := fun _ => false,
    putFails := fun _ _ => false,
    deleteFails := fun _ => false }

def emptyWorld : World := { caches := [], log := [] }

/-- The current store is empty; a store of an earlier generation still holds an entry for
`dataRequest` and one for the root page. -/
def staleWorld : World :=
  { caches :=
      [("minix-cache-v0.9.0",
          [("https://minix.app/api/data?page=2", staleResponse),
           ("https://minix.app/", rootPage)]),
       ("minix-cache-v1.0.0", [])],
    log := [] }

/-- The current store holds the root page and an entry for `dataRequest`, between two other
stores. -/
def crowdedWorld : World :=
  { caches :=
      [("minix-cache-v0.9.0", [("https://minix.app/", rootPage)]),
       ("minix-cache-v1.0.0",
          [("https://minix.app/", rootPage),
           ("https://minix.app/api/data?page=2", staleResponse)]),
       ("images", [])],
    log := [] }

/-! ## The stores under `open` and `put` -/

theorem entryGet_append_of_none (c d : Cache) (key : String) (h : entryGet c key = none) :
    entryGet (c ++ d) key = entryGet d key := by
  induction c with
  | nil => rfl
  | cons e rest ih =>
    obtain ⟨k, v⟩ := e
    by_cases hk : k = key
    · simp [entryGet, hk] at h
    · simp only [entryGet, hk, if_false] at h
      simp [entryGet, hk, ih h]

theorem entryGet_filter_ne (c : Cache) (key k : String) (hk : k ≠ key) :
    entryGet (c.filter (fun e => decide (e.1 ≠ key))) k = entryGet c k := by
  induction c with
  | nil => rfl
  | cons e rest ih =>
    obtain ⟨k1, v⟩ := e
    by_cases h1 : k1 = key
    · have h3 : ¬ key = k := fun h => hk h.symm
      simp_all [List.filter_cons, entryGet]
    · by_cases h2 : k1 = k
      · simp_all [List.filter_cons, entryGet]
      · simp_all [List.filter_cons, entryGet]

theorem entryGet_filter_self (c : Cache) (key : String) :
    entryGet (c.filter (fun e => decide (e.1 ≠ key))) key = none := by
  induction c with
  | nil => rfl
  | cons e rest ih =>
    obtain ⟨k1, v⟩ := e
    by_cases h1 : k1 = key
    · simp_all [List.filter_cons]
    · simp_all [List.filter_cons, entryGet]

theorem entryGet_entryPut_same (c : Cache) (key : String) (r : Response) :
    entryGet (entryPut c key r) key = some r := by
  unfold entryPut
  rw [entryGet_append_of_none _ _ _ (entryGet_filter_self c key)]
  simp [entryGet]

theorem entryGet_entryPut_other (c : Cache) (key k : String) (r : Response) (hk : k ≠ key) :
    entryGet (entryPut c key r) k = entryGet c k := by
  unfold entryPut
  have hk2 : ¬ key = k := fun h => hk h.symm
  cases h : entryGet (c.filter (fun e => decide (e.1 ≠ key))) k with
  | none =>
    rw [entryGet_append_of_none _ _ _ h, ← entryGet_filter_ne c key k hk, h]
    simp [entryGet, hk2]
  | some v =>
    rw [← entryGet_filter_ne c key k hk, h]
    clear hk2
    revert h
    generalize c.filter (fun e => decide (e.1 ≠ key)) = d
    intro h
    induction d with
    | nil => simp [entryGet] at h
    | cons e rest ih =>
      obtain ⟨k1, v1⟩ := e
      by_cases h1 : k1 = k
      · simp_all [entryGet]
      · simp_all [entryGet]

theorem storageGet_append_of_none (s t : CacheStorage) (name : String)
    (h : storageGet s name = none) : storageGet (s ++ t) name = storageGet t name := by
  induction s with
  | nil => rfl
  | cons p rest ih =>
    obtain ⟨n, c⟩ := p
    by_cases hn : n = name
    · simp [storageGet, hn] at h
    · simp only [storageGet, hn, if_false] at h
      simp [storageGet, hn, ih h]

theorem storageGet_append_of_some (s t : CacheStorage) (name : String) (c : Cache)
    (h : storageGet s name = some c) : storageGet (s ++ t) name = some c := by
  induction s with
  | nil => simp [storageGet] at h
  | cons p rest ih =>
    obtain ⟨n, c1⟩ := p
    by_cases hn : n = name
    · simp_all [storageGet]
    · simp_all [storageGet]

theorem storageHas_iff (s : CacheStorage) (name : String) :
    storageHas s name = true ↔ ∃ c, storageGet s name = some c := by
  induction s with
  | nil => simp [storageHas, storageGet]
  | cons p rest ih =>
    obtain ⟨n, c1⟩ := p
    by_cases hn : n = name
    · simp [storageHas, storageGet, hn]
    · simp only [storageHas, List.any_cons, storageGet, hn, if_false] at ih ⊢
      simp [hn, ih]

/-- Opening a store changes no entry. -/
theorem storageEntry_storageOpen (s : CacheStorage) (name n k : String) :
    storageEntry (storageOpen s name) n k = storageEntry s n k := by
  unfold storageOpen
  cases hh : storageHas s name with
  | true => simp
  | false =>
    simp only [Bool.false_eq_true, if_false, storageEntry]
    cases hg : storageGet s n with
    | some c => rw [storageGet_append_of_some _ _ _ _ hg]
    | none =>
      rw [storageGet_append_of_none _ _ _ hg]
      by_cases hn : name = n
      · simp [storageGet, hn, entryGet]
      · simp [storageGet, hn]

theorem storageGet_storageOpen_self (s : CacheStorage) (name : String) :
    ∃ c, storageGet (storageOpen s name) name = some c := by
  unfold storageOpen
  cases hh : storageHas s name with
  | true => simpa using (storageHas_iff s name).1 hh
  | false =>
    simp only [Bool.false_eq_true, if_false]
    cases hg : storageGet s name with
    | some c => exact ⟨c, storageGet_append_of_some _ _ _ _ hg⟩
    | none => exact ⟨[], by rw [storageGet_append_of_none _ _ _ hg]; simp [storageGet]⟩

theorem storagePut_cons (n1 : String) (c1 : Cache) (rest : CacheStorage) (name key : String)
    (r : Response) :
    storagePut ((n1, c1) :: rest) name key r =
      (n1, if n1 = name then entryPut c1 key r else c1) :: storagePut rest name key r := by
  by_cases h : n1 = name <;> simp [storagePut, h]

theorem storageGet_storagePut (s : CacheStorage) (name key n : String) (r : Response) :
    storageGet (storagePut s name key r) n =
      (storageGet s n).map (fun c => if n = name then entryPut c key r else c) := by
  induction s with
  | nil => rfl
  | cons p rest ih =>
    obtain ⟨n1, c1⟩ := p
    rw [storagePut_cons]
    by_cases h2 : n1 = n
    · subst h2
      simp [storageGet]
    · simp [storageGet, h2, ih]

theorem storageEntry_storagePut_same (s : CacheStorage) (name key : String) (r : Response)
    (h : ∃ c, storageGet s name = some c) :
    storageEntry (storagePut s name key r) name key = some r := by
  obtain ⟨c, hc⟩ := h
  simp [storageEntry, storageGet_storagePut, hc, entryGet_entryPut_same]

theorem storageEntry_storagePut_other (s : CacheStorage) (name key n k : String) (r : Response)
    (h : n ≠ name ∨ k ≠ key) :
    storageEntry (storagePut s name key r) n k = storageEntry s n k := by
  simp only [storageEntry, storageGet_storagePut]
  cases hg : storageGet s n with
  | none => rfl
  | some c =>
    by_cases hn : n = name
    · have hk : k ≠ key := by
        rcases h with h | h
        · exact absurd hn h
        · exact h
      simp [hn, entryGet_entryPut_other _ _ _ _ hk]
    · simp [hn]

/-! ## Running a handler body -/

@[simp]
theorem Host.bind_apply {α β : Type} (m : Host α) (f : α → Host β) (w : World) :
    (m >>= f) w = Host.bind m f w := rfl

@[simp]
theorem Host.pure_apply {α : Type} (a : α) (w : World) :
    (Pure.pure a : Host α) w = (Except.ok a, w) := rfl

theorem Response.clone_eq (r : Response) : r.clone = r := by
  cases r; rfl

/-- The `catch` block answers from the storage and changes no store. -/
theorem fallbackChain_hit (env : Env) (request : Request) (w : World) (entry : Response)
    (h : storageMatch w.caches request.key = some entry) :
    fallbackChain env request w =
      (Except.ok entry,
       { caches := w.caches, log := w.log ++ [HostCall.cachesMatch request.key] }) := by
  simp [fallbackChain, Host.bind, cachesMatch, getCaches, record, h]

theorem fallbackChain_root (env : Env) (request : Request) (w : World) (root : Response)
    (h : storageMatch w.caches request.key = none) (hnav : request.mode = "navigate")
    (hr : storageMatch w.caches (localRequest env OFFLINE_URL).key = some root) :
    fallbackChain env request w =
      (Except.ok root,
       { caches := w.caches,
         log := w.log ++ [HostCall.cachesMatch request.key,
                          HostCall.cachesMatch (localRequest env OFFLINE_URL).key] }) := by
  simp [fallbackChain, Host.bind, cachesMatch, getCaches, record, h, hnav, hr]

theorem fallbackChain_navigate_miss (env : Env) (request : Request) (w : World)
    (h : storageMatch w.caches request.key = none) (hnav : request.mode = "navigate")
    (hr : storageMatch w.caches (localRequest env OFFLINE_URL).key = none) :
    fallbackChain env request w =
      (Except.ok (offlineResponse request.url),
       { caches := w.caches,
         log := w.log ++ [HostCall.cachesMatch request.key,
                          HostCall.cachesMatch (localRequest env OFFLINE_URL).key] }) := by
  simp [fallbackChain, Host.bind, cachesMatch, getCaches, record, h, hnav, hr]

theorem fallbackChain_miss (env : Env) (request : Request) (w : World)
    (h : storageMatch w.caches request.key = none) (hnav : request.mode ≠ "navigate") :
    fallbackChain env request w =
      (Except.ok (offlineResponse request.url),
       { caches := w.caches, log := w.log ++ [HostCall.cachesMatch request.key] }) := by
  simp [fallbackChain, Host.bind, cachesMatch, getCaches, record, h, hnav]

/-- Whatever the storage holds, the `catch` block yields a response, leaves the stores as
they are and only adds lookups to the log. -/
theorem fallbackChain_total (env : Env) (request : Request) (w : World) :
    ∃ answer later, fallbackChain env request w =
      (Except.ok answer, { caches := w.caches, log := w.log ++ later }) ∧
      ∀ c ∈ later, ∃ key, c = HostCall.cachesMatch key := by
  cases h : storageMatch w.caches request.key with
  | some entry => exact ⟨_, _, fallbackChain_hit env request w entry h, by simp⟩
  | none =>
    by_cases hnav : request.mode = "navigate"
    · cases hr : storageMatch w.caches (localRequest env OFFLINE_URL).key with
      | some root => exact ⟨_, _, fallbackChain_root env request w root h hnav hr, by simp⟩
      | none => exact ⟨_, _, fallbackChain_navigate_miss env request w h hnav hr, by simp⟩
    · exact ⟨_, _, fallbackChain_miss env request w h hnav, by simp⟩

/-- A listener that passes the filter hands the resolver's promise to `respondWith`. -/
theorem onFetch_eligible (env : Env) (request : Request) (w : World)
    (hm : request.method = "GET") (hp : startsWithHttp request.url.protocol = true) :
    (onFetch env request).run w =
      (Except.ok (some (resolveRequest env request w).1), (resolveRequest env request w).2) := by
  simp [onFetch, Host.run, hm, hp, Host.settle, Host.bind]

/-- A rejected fetch enters the `catch` block. -/
theorem resolveRequest_network_failed (env : Env) (request : Request) (w : World)
    (hn : env.network request = none) :
    resolveRequest env request w =
      fallbackChain env request
        { caches := w.caches, log := w.log ++ [HostCall.fetch request.key] } := by
  simp [resolveRequest, Host.tryCatch, fetch, Host.bind, record, hn, Host.throw]

/-- A response whose status is not 200 is returned at once. -/
theorem resolveRequest_not_200 (env : Env) (request : Request) (w : World) (r : Response)
    (hn : env.network request = some r) (hs : r.status ≠ 200) :
    resolveRequest env request w =
      (Except.ok r, { caches := w.caches, log := w.log ++ [HostCall.fetch request.key] }) := by
  simp [resolveRequest, Host.tryCatch, fetch, Host.bind, record, hn, hs]

/-- A rejected `caches.open` after a fetch that resolved with 200 enters the `catch` block. -/
theorem resolveRequest_open_failed (env : Env) (request : Request) (w : World) (r : Response)
    (hn : env.network request = some r) (hs : r.status = 200)
    (ho : env.openFails CACHE_NAME = true) :
    resolveRequest env request w =
      fallbackChain env request
        { caches := w.caches,
          log := w.log ++ [HostCall.fetch request.key, HostCall.cachesOpen CACHE_NAME] } := by
  simp [resolveRequest, Host.tryCatch, fetch, Host.bind, record, hn, hs, cachesOpen, ho, Host.throw]

theorem resolveRequest_cross_origin (env : Env) (request : Request) (w : World) (r : Response)
    (hn : env.network request = some r) (hs : r.status = 200)
    (ho : env.openFails CACHE_NAME = false)
    (hx : request.url.origin ≠ env.location.origin) :
    resolveRequest env request w =
      (Except.ok r,
       { caches := storageOpen w.caches CACHE_NAME,
         log := w.log ++ [HostCall.fetch request.key, HostCall.cachesOpen CACHE_NAME] }) := by
  simp [resolveRequest, Host.tryCatch, fetch, Host.bind, record, hn, hs, cachesOpen, ho, hx,
    modifyCaches]

theorem resolveRequest_put_failed (env : Env) (request : Request) (w : World) (r : Response)
    (hn : env.network request = some r) (hs : r.status = 200)
    (ho : env.openFails CACHE_NAME = false)
    (hx : request.url.origin = env.location.origin)
    (hput : env.putFails CACHE_NAME request.key = true) :
    resolveRequest env request w =
      (Except.ok r,
       { caches := storageOpen w.caches CACHE_NAME,
         log := w.log ++ [HostCall.fetch request.key, HostCall.cachesOpen CACHE_NAME,
                          HostCall.cachePut CACHE_NAME request.key] }) := by
  simp [resolveRequest, Host.tryCatch, fetch, Host.bind, record, hn, hs, cachesOpen, ho, hx,
    modifyCaches, Host.detach, cachePut, hput, Host.throw]

theorem resolveRequest_stored (env : Env) (request : Request) (w : World) (r : Response)
    (hn : env.network request = some r) (hs : r.status = 200)
    (ho : env.openFails CACHE_NAME = false)
    (hx : request.url.origin = env.location.origin)
    (hput : env.putFails CACHE_NAME request.key = false) :
    resolveRequest env request w =
      (Except.ok r,
       { caches := storagePut (storageOpen w.caches CACHE_NAME) CACHE_NAME request.key r,
         log := w.log ++ [HostCall.fetch request.key, HostCall.cachesOpen CACHE_NAME,
                          HostCall.cachePut CACHE_NAME request.key] }) := by
  simp [resolveRequest, Host.tryCatch, fetch, Host.bind, record, hn, hs, cachesOpen, ho, hx,
    modifyCaches, Host.detach, cachePut, hput, Response.clone_eq]

theorem storageMatch_eq_none_iff (s : CacheStorage) (key : String) :
    storageMatch s key = none ↔ ∀ p ∈ s, entryGet p.2 key = none := by
  induction s with
  | nil => simp [storageMatch]
  | cons p rest ih =>
    obtain ⟨n, c⟩ := p
    cases h : entryGet c key with
    | none => simp [storageMatch, h, ih]
    | some v => simp [storageMatch, h]

/-- The answer of `caches.match` is the entry of the first store that has one, whatever
that store is called. -/
theorem storageMatch_first (before after : CacheStorage) (name : String) (cache : Cache)
    (key : String) (entry : Response)
    (h1 : ∀ p ∈ before, entryGet p.2 key = none) (h2 : entryGet cache key = some entry) :
    storageMatch (before ++ (name, cache) :: after) key = some entry := by
  induction before with
  | nil => simp [storageMatch, h2]
  | cons p rest ih =>
    obtain ⟨n, c⟩ := p
    have hc : entryGet c key = none := h1 (n, c) (List.mem_cons_self _ _)
    have hrest : ∀ p ∈ rest, entryGet p.2 key = none :=
      fun p hp => h1 p (List.mem_cons_of_mem _ hp)
    simp [storageMatch, hc, ih hrest]

/-- The resolver starts with its one network attempt. -/
theorem resolveRequest_log (env : Env) (request : Request) (w : World) :
    ∃ later, (resolveRequest env request w).2.log = w.log ++ HostCall.fetch request.key :: later ∧
      ∀ c ∈ later, ∀ key, c ≠ HostCall.fetch key := by
  cases hn : env.network request with
  | none =>
    obtain ⟨answer, later, h, hl⟩ := fallbackChain_total env request
      { caches := w.caches, log := w.log ++ [HostCall.fetch request.key] }
    refine ⟨later, ?_, ?_⟩
    · rw [resolveRequest_network_failed env request w hn, h]; simp
    · intro c hc key hk
      obtain ⟨k, hk2⟩ := hl c hc
      rw [hk2] at hk
      cases hk
  | some r =>
    by_cases hs : r.status = 200
    · cases ho : env.openFails CACHE_NAME with
      | true =>
        obtain ⟨answer, later, h, hl⟩ := fallbackChain_total env request
          { caches := w.caches,
            log := w.log ++ [HostCall.fetch request.key, HostCall.cachesOpen CACHE_NAME] }
        refine ⟨HostCall.cachesOpen CACHE_NAME :: later, ?_, ?_⟩
        · rw [resolveRequest_open_failed env request w r hn hs ho, h]; simp
        · intro c hc key hk
          rcases List.mem_cons.1 hc with h1 | h1
          · rw [h1] at hk; cases hk
          · obtain ⟨k, hk2⟩ := hl c h1
            rw [hk2] at hk
            cases hk
      | false =>
        by_cases hx : request.url.origin = env.location.origin
        · cases hput : env.putFails CACHE_NAME request.key with
          | true =>
            refine ⟨[HostCall.cachesOpen CACHE_NAME, HostCall.cachePut CACHE_NAME request.key],
              ?_, ?_⟩
            · rw [resolveRequest_put_failed env request w r hn hs ho hx hput]
            · intro c hc key hk
              simp at hc
              rcases hc with h1 | h1 <;> (rw [h1] at hk; cases hk)
          | false =>
            refine ⟨[HostCall.cachesOpen CACHE_NAME, HostCall.cachePut CACHE_NAME request.key],
              ?_, ?_⟩
            · rw [resolveRequest_stored env request w r hn hs ho hx hput]
            · intro c hc key hk
              simp at hc
              rcases hc with h1 | h1 <;> (rw [h1] at hk; cases hk)
        · refine ⟨[HostCall.cachesOpen CACHE_NAME], ?_, ?_⟩
          · rw [resolveRequest_cross_origin env request w r hn hs ho hx]
          · intro c hc key hk
            simp at hc
            rw [hc] at hk; cases hk
    · refine ⟨[], ?_, ?_⟩
      · rw [resolveRequest_not_200 env request w r hn hs]
      · simp

/-! ## The fetch listener -/

/-- C5: the `fetch` listener hands a promise to `respondWith` exactly when the method is
`GET` and the protocol starts with `http` (as `http:` and `https:` do, and
`chrome-extension:` does not).  For any other request it returns with the world as it
found it: no call to the platform, no store read or written.  For a request that passes,
the first call is the network fetch of that request, and no later call is a fetch. -/
theorem fetch_listener_filter (env : Env) (request : Request) (w : World) :
    ((∃ promise, ((onFetch env request).run w).1 = Except.ok (some promise)) ↔
        (request.method = "GET" ∧ startsWithHttp request.url.protocol = true)) ∧
    ((request.method ≠ "GET" ∨ startsWithHttp request.url.protocol = false) →
        (onFetch env request).run w = (Except.ok none, w)) ∧
    ((request.method = "GET" ∧ startsWithHttp request.url.protocol = true) →
        ∃ later, ((onFetch env request).run w).2.log
            = w.log ++ HostCall.fetch request.key :: later ∧
          ∀ c ∈ later, ∀ key, c ≠ HostCall.fetch key) ∧
    startsWithHttp "http:" = true ∧ startsWithHttp "https:" = true ∧
    startsWithHttp "chrome-extension:" = false := by
  refine ⟨?_, ?_, ?_, by decide, by decide, by decide⟩
  · by_cases hm : request.method = "GET"
    · cases hp : startsWithHttp request.url.protocol
      · simp [onFetch, Host.run, hm, hp]
      · simp [onFetch, Host.run, hm, hp, Host.settle, Host.bind]
    · simp [onFetch, Host.run, hm]
  · rintro (hm | hp)
    · simp [onFetch, Host.run, hm]
    · by_cases hm : request.method = "GET"
      · simp [onFetch, Host.run, hm, hp]
      · simp [onFetch, Host.run, hm]
  · rintro ⟨hm, hp⟩
    rw [onFetch_eligible env request w hm hp]
    exact resolveRequest_log env request w

/-- C3: when the one network fetch of an eligible request rejects, the tiers are tried
in order and the first hit is the answer.  An entry that `caches.match` finds for the
request is returned as stored, for a navigation too, after the calls fetch, match.  With no
such entry and mode `navigate`, the stored entry of the root path (the worker's origin
followed by `/`) is returned when there is one, and the built 503 response otherwise,
after the calls fetch, match, match.  With no such entry and another mode the built 503
response is returned after the calls fetch, match.  The log shows one fetch, made before
any lookup, and the stores are as they were. -/
theorem fallback_order (env : Env) (request : Request) (w : World)
    (hm : request.method = "GET") (hp : startsWithHttp request.url.protocol = true)
    (hn : env.network request = none) :
    (∀ entry, storageMatch w.caches request.key = some entry →
      (onFetch env request).run w =
        (Except.ok (some (Except.ok entry)),
         { caches := w.caches,
           log := w.log ++ [HostCall.fetch request.key, HostCall.cachesMatch request.key] })) ∧
    (storageMatch w.caches request.key = none → request.mode = "navigate" →
      ∀ root, storageMatch w.caches (localRequest env OFFLINE_URL).key = some root →
      (onFetch env request).run w =
        (Except.ok (some (Except.ok root)),
         { caches := w.caches,
           log := w.log ++ [HostCall.fetch request.key, HostCall.cachesMatch request.key,
                            HostCall.cachesMatch (localRequest env OFFLINE_URL).key] })) ∧
    (storageMatch w.caches request.key = none → request.mode = "navigate" →
      storageMatch w.caches (localRequest env OFFLINE_URL).key = none →
      (onFetch env request).run w =
        (Except.ok (some (Except.ok (offlineResponse request.url))),
         { caches := w.caches,
           log := w.log ++ [HostCall.fetch request.key, HostCall.cachesMatch request.key,
                            HostCall.cachesMatch (localRequest env OFFLINE_URL).key] })) ∧
    (storageMatch w.caches request.key = none → request.mode ≠ "navigate" →
      (onFetch env request).run w =
        (Except.ok (some (Except.ok (offlineResponse request.url))),
         { caches := w.caches,
           log := w.log ++ [HostCall.fetch request.key, HostCall.cachesMatch request.key] })) ∧
    (localRequest env OFFLINE_URL).key = env.location.origin ++ "/" := by
  rw [onFetch_eligible env request w hm hp, resolveRequest_network_failed env request w hn]
  refine ⟨?_, ?_, ?_, ?_, ?_⟩
  · intro entry he
    rw [fallbackChain_hit env request ⟨w.caches, w.log ++ [HostCall.fetch request.key]⟩ entry he]
    simp
  · intro h1 h2 root h3
    rw [fallbackChain_root env request ⟨w.caches, w.log ++ [HostCall.fetch request.key]⟩ root h1 h2 h3]
    simp
  · intro h1 h2 h3
    rw [fallbackChain_navigate_miss env request ⟨w.caches, w.log ++ [HostCall.fetch request.key]⟩ h1 h2 h3]
    simp
  · intro h1 h2
    rw [fallbackChain_miss env request ⟨w.caches, w.log ++ [HostCall.fetch request.key]⟩ h1 h2]
    simp
  · simp [localRequest, Request.key, URL.origin, OFFLINE_URL]

theorem fallback_order_holds :
    (dataRequest.method = "GET" ∧ startsWithHttp dataRequest.url.protocol = true ∧
      offline.network dataRequest = none) ∧
    (onFetch offline dataRequest).run crowdedWorld =
      (Except.ok (some (Except.ok staleResponse)),
       { caches := crowdedWorld.caches,
         log := crowdedWorld.log ++ [HostCall.fetch dataRequest.key,
                                     HostCall.cachesMatch dataRequest.key] }) :=
  ⟨⟨rfl, rfl, rfl⟩, (fallback_order offline dataRequest crowdedWorld rfl rfl rfl).1 staleResponse rfl⟩

/-- C4: when the fetch of an eligible request rejects, no stored entry matches the
request and either the mode is not `navigate` or no root entry is stored, the promise
handed to `respondWith` is fulfilled with a response of status 503 whose `Content-Type`
header is `application/json` and whose body is the JSON text of the object with the two
fields `error` (the fixed marker) and `url` (the pathname of the request URL, without
origin, query or fragment). -/
theorem offline_response_shape (env : Env) (request : Request) (w : World)
    (hm : request.method = "GET") (hp : startsWithHttp request.url.protocol = true)
    (hn : env.network request = none)
    (hmiss : storageMatch w.caches request.key = none)
    (hroot : request.mode ≠ "navigate" ∨
      storageMatch w.caches (localRequest env OFFLINE_URL).key = none) :
    ∃ response,
      ((onFetch env request).run w).1 = Except.ok (some (Except.ok response)) ∧
      response.status = 503 ∧
      response.header "Content-Type" = some "application/json" ∧
      response.body =
        jsonStringify [("error", "Offline - Resource not available"),
                       ("url", request.url.pathname)] ∧
      response.body =
        "\x7b\"error\":\"Offline - Resource not available\",\"url\":"
          ++ jsonQuote request.url.pathname ++ "\x7d" := by
  refine ⟨offlineResponse request.url, ?_, rfl, ?_, rfl, ?_⟩
  · rw [onFetch_eligible env request w hm hp, resolveRequest_network_failed env request w hn]
    by_cases hnav : request.mode = "navigate"
    · rcases hroot with h | h
      · exact absurd hnav h
      · rw [fallbackChain_navigate_miss env request ⟨w.caches, w.log ++ [HostCall.fetch request.key]⟩ hmiss hnav h]
    · rw [fallbackChain_miss env request ⟨w.caches, w.log ++ [HostCall.fetch request.key]⟩ hmiss hnav]
  · simp [Response.header, offlineResponse]
  · have hL : "\x7b" ++ (jsonQuote "error" ++ ":" ++ jsonQuote "Offline - Resource not available")
        ++ "," ++ (jsonQuote "url" ++ ":")
        = "\x7b\"error\":\"Offline - Resource not available\",\"url\":" := by decide
    rw [← hL]
    simp [offlineResponse, jsonStringify, String.intercalate, String.intercalate.go,
      String.append_assoc]

theorem offline_response_shape_holds :
    (dataRequest.method = "GET" ∧ startsWithHttp dataRequest.url.protocol = true ∧
      offline.network dataRequest = none ∧
      storageMatch emptyWorld.caches dataRequest.key = none ∧
      (dataRequest.mode ≠ "navigate" ∨
        storageMatch emptyWorld.caches (localRequest offline OFFLINE_URL).key = none)) ∧
    ∃ response,
      ((onFetch offline dataRequest).run emptyWorld).1 = Except.ok (some (Except.ok response)) ∧
      response.status = 503 ∧
      response.header "Content-Type" = some "application/json" ∧
      response.body =
        jsonStringify [("error", "Offline - Resource not available"),
                       ("url", dataRequest.url.pathname)] ∧
      response.body =
        "\x7b\"error\":\"Offline - Resource not available\",\"url\":"
          ++ jsonQuote dataRequest.url.pathname ++ "\x7d" :=
  ⟨⟨rfl, rfl, rfl, rfl, Or.inr rfl⟩,
   offline_response_shape offline dataRequest emptyWorld rfl rfl rfl rfl (Or.inr rfl)⟩

/-- The text of the body for `dataRequest`. -/
theorem offline_response_body_text :
    (offlineResponse dataRequest.url).body =
      "\x7b\"error\":\"Offline - Resource not available\",\"url\":\"/api/data\"\x7d" := by
  rfl

/-- C1, at the failing input: a `GET` request to another origin whose fetch resolves with
a response of status 200, on a platform where `caches.open` rejects.  The rejection is
thrown inside the `try` block, so the `catch` block runs: the listener answers with the
built 503 response, not with the network response. -/
theorem open_rejected_after_fetch_resolved :
    onlineStorageDown.network cdnRequest = some freshResponse ∧
    cdnRequest.method = "GET" ∧ startsWithHttp cdnRequest.url.protocol = true ∧
    (onFetch onlineStorageDown cdnRequest).run emptyWorld =
      (Except.ok (some (Except.ok (offlineResponse cdnRequest.url))),
       { caches := [],
         log := [HostCall.fetch "https://cdn.example.com/lib.js",
                 HostCall.cachesOpen "minix-cache-v1.0.0",
                 HostCall.cachesMatch "https://cdn.example.com/lib.js"] }) ∧
    (offlineResponse cdnRequest.url).status = 503 ∧
    offlineResponse cdnRequest.url ≠ freshResponse := by
  refine ⟨rfl, rfl, rfl, rfl, rfl, ?_⟩
  intro h
  have hs : (offlineResponse cdnRequest.url).status = freshResponse.status := by rw [h]
  exact absurd hs (by decide)

/-- C9, at the failing input: a same-origin `GET` request whose fetch resolves with a
response of status 200, on a platform where `caches.open` rejects.  With a stale entry
stored for the request the listener answers with the stale entry; with nothing stored it
answers with the built 503 response.  In neither case does it answer with the network
response. -/
theorem persistence_failure_changes_answer :
    onlineStorageDown.network dataRequest = some freshResponse ∧
    freshResponse.status = 200 ∧
    dataRequest.url.origin = onlineStorageDown.location.origin ∧
    onlineStorageDown.openFails CACHE_NAME = true ∧
    (onFetch onlineStorageDown dataRequest).run staleWorld =
      (Except.ok (some (Except.ok staleResponse)),
       { caches := staleWorld.caches,
         log := [HostCall.fetch "https://minix.app/api/data?page=2",
                 HostCall.cachesOpen "minix-cache-v1.0.0",
                 HostCall.cachesMatch "https://minix.app/api/data?page=2"] }) ∧
    staleResponse ≠ freshResponse ∧
    ((onFetch onlineStorageDown dataRequest).run emptyWorld).1 =
      Except.ok (some (Except.ok (offlineResponse dataRequest.url))) := by
  refine ⟨rfl, rfl, rfl, rfl, rfl, by decide, rfl⟩

/-- C2, counterexample: the fetch of a same-origin `GET` request resolves with status 200
and `caches.open` rejects.  No `cache.put` is issued and the current store has no entry for
the request afterwards, although the status is 200 and the origins are equal. -/
theorem no_put_when_open_rejects :
    onlineStorageDown.network dataRequest = some freshResponse ∧
    dataRequest.method = "GET" ∧ startsWithHttp dataRequest.url.protocol = true ∧
    ¬ ((∃ name key, HostCall.cachePut name key ∈
          ((onFetch onlineStorageDown dataRequest).run emptyWorld).2.log) ↔
        (freshResponse.status = 200 ∧
          dataRequest.url.origin = onlineStorageDown.location.origin)) ∧
    storageEntry ((onFetch onlineStorageDown dataRequest).run emptyWorld).2.caches
      CACHE_NAME dataRequest.key = none := by
  refine ⟨rfl, rfl, rfl, ?_, rfl⟩
  intro h
  obtain ⟨name, key, hmem⟩ := h.2 ⟨rfl, rfl⟩
  have hlog : ((onFetch onlineStorageDown dataRequest).run emptyWorld).2.log =
      [HostCall.fetch "https://minix.app/api/data?page=2",
       HostCall.cachesOpen "minix-cache-v1.0.0",
       HostCall.cachesMatch "https://minix.app/api/data?page=2"] := rfl
  rw [hlog] at hmem
  simp at hmem

/-- C2, amended: for an eligible request whose fetch resolves with `r`, the resolver
issues a `cache.put` exactly when `r.status` is 200, the origin of the request URL is the
worker's own and `caches.open` of the current store did not reject; a put it issues is
into the current store under the key of the request.  When moreover the put does not
reject, the current store then holds `r` under that key, whatever it held before, and
every other entry of every store is as it was.  In every other case all entries of all
stores are as they were. -/
theorem persist_on_success (env : Env) (request : Request) (w : World) (r : Response)
    (hm : request.method = "GET") (hp : startsWithHttp request.url.protocol = true)
    (hn : env.network request = some r) :
    ∃ calls,
      ((onFetch env request).run w).2.log = w.log ++ calls ∧
      ((∃ name key, HostCall.cachePut name key ∈ calls) ↔
        (r.status = 200 ∧ request.url.origin = env.location.origin ∧
          env.openFails CACHE_NAME = false)) ∧
      (∀ name key, HostCall.cachePut name key ∈ calls →
        name = CACHE_NAME ∧ key = request.key) ∧
      ((r.status = 200 ∧ request.url.origin = env.location.origin ∧
          env.openFails CACHE_NAME = false ∧ env.putFails CACHE_NAME request.key = false) →
        storageEntry ((onFetch env request).run w).2.caches CACHE_NAME request.key = some r ∧
        ∀ name key, (name ≠ CACHE_NAME ∨ key ≠ request.key) →
          storageEntry ((onFetch env request).run w).2.caches name key
            = storageEntry w.caches name key) ∧
      (¬ (r.status = 200 ∧ request.url.origin = env.location.origin ∧
          env.openFails CACHE_NAME = false ∧ env.putFails CACHE_NAME request.key = false) →
        ∀ name key,
          storageEntry ((onFetch env request).run w).2.caches name key
            = storageEntry w.caches name key) := by
  rw [onFetch_eligible env request w hm hp]
  by_cases hs : r.status = 200
  · cases ho : env.openFails CACHE_NAME with
    | true =>
      obtain ⟨answer, later, h, hl⟩ := fallbackChain_total env request
        ⟨w.caches, w.log ++ [HostCall.fetch request.key, HostCall.cachesOpen CACHE_NAME]⟩
      refine ⟨[HostCall.fetch request.key, HostCall.cachesOpen CACHE_NAME] ++ later, ?_, ?_, ?_, ?_, ?_⟩
      · rw [resolveRequest_open_failed env request w r hn hs ho, h]; simp
      · constructor
        · rintro ⟨name, key, hmem⟩
          simp at hmem
          obtain ⟨k, hk⟩ := hl _ hmem
          cases hk
        · rintro ⟨_, _, h3⟩
          cases h3
      · intro name key hmem
        simp at hmem
        obtain ⟨k, hk⟩ := hl _ hmem
        cases hk
      · rintro ⟨_, _, h3, _⟩
        cases h3
      · intro _ name key
        rw [resolveRequest_open_failed env request w r hn hs ho, h]
    | false =>
      by_cases hx : request.url.origin = env.location.origin
      · cases hput : env.putFails CACHE_NAME request.key with
        | true =>
          refine ⟨[HostCall.fetch request.key, HostCall.cachesOpen CACHE_NAME,
            HostCall.cachePut CACHE_NAME request.key], ?_, ?_, ?_, ?_, ?_⟩
          · rw [resolveRequest_put_failed env request w r hn hs ho hx hput]
          · simp [hs, hx]
          · intro name key hmem
            simpa using hmem
          · rintro ⟨_, _, _, h4⟩
            cases h4
          · intro _ name key
            rw [resolveRequest_put_failed env request w r hn hs ho hx hput]
            exact storageEntry_storageOpen _ _ _ _
        | false =>
          refine ⟨[HostCall.fetch request.key, HostCall.cachesOpen CACHE_NAME,
            HostCall.cachePut CACHE_NAME request.key], ?_, ?_, ?_, ?_, ?_⟩
          · rw [resolveRequest_stored env request w r hn hs ho hx hput]
          · simp [hs, hx]
          · intro name key hmem
            simpa using hmem
          · intro _
            rw [resolveRequest_stored env request w r hn hs ho hx hput]
            refine ⟨storageEntry_storagePut_same _ _ _ _ (storageGet_storageOpen_self _ _), ?_⟩
            intro name key hne
            rw [storageEntry_storagePut_other _ _ _ _ _ _ hne]
            exact storageEntry_storageOpen _ _ _ _
          · intro hnot
            exact absurd ⟨hs, hx, rfl, rfl⟩ hnot
      · refine ⟨[HostCall.fetch request.key, HostCall.cachesOpen CACHE_NAME], ?_, ?_, ?_, ?_, ?_⟩
        · rw [resolveRequest_cross_origin env request w r hn hs ho hx]
        · simp [hx]
        · intro name key hmem
          simp at hmem
        · rintro ⟨_, h2, _⟩
          exact absurd h2 hx
        · intro _ name key
          rw [resolveRequest_cross_origin env request w r hn hs ho hx]
          exact storageEntry_storageOpen _ _ _ _
  · refine ⟨[HostCall.fetch request.key], ?_, ?_, ?_, ?_, ?_⟩
    · rw [resolveRequest_not_200 env request w r hn hs]
    · simp [hs]
    · intro name key hmem
      simp at hmem
    · rintro ⟨h1, _⟩
      exact absurd h1 hs
    · intro _ name key
      rw [resolveRequest_not_200 env request w r hn hs]

theorem persist_on_success_holds :
    (dataRequest.method = "GET" ∧ startsWithHttp dataRequest.url.protocol = true ∧
      online.network dataRequest = some freshResponse) ∧
    (freshResponse.status = 200 ∧ dataRequest.url.origin = online.location.origin ∧
      online.openFails CACHE_NAME = false ∧
      online.putFails CACHE_NAME dataRequest.key = false) ∧
    storageEntry ((onFetch online dataRequest).run crowdedWorld).2.caches
      CACHE_NAME dataRequest.key = some freshResponse ∧
    storageEntry crowdedWorld.caches CACHE_NAME dataRequest.key = some staleResponse := by
  refine ⟨⟨rfl, rfl, rfl⟩, ⟨rfl, rfl, rfl, rfl⟩, ?_, rfl⟩
  obtain ⟨calls, _, _, _, h4, _⟩ :=
    persist_on_success online dataRequest crowdedWorld freshResponse rfl rfl rfl
  exact (h4 ⟨rfl, rfl, rfl, rfl⟩).1

/-- C8, counterexample: the network is down, the current store is empty and a store of
the earlier generation `minix-cache-v0.9.0` holds an entry for the request and one for the
root page.  The subresource request is answered with the entry of the stale store, and
the navigation with the root page of the stale store. -/
theorem fallback_answers_from_stale_store :
    offline.network dataRequest = none ∧
    dataRequest.method = "GET" ∧ startsWithHttp dataRequest.url.protocol = true ∧
    storageEntry staleWorld.caches CACHE_NAME dataRequest.key = none ∧
    storageEntry staleWorld.caches "minix-cache-v0.9.0" dataRequest.key = some staleResponse ∧
    ((onFetch offline dataRequest).run staleWorld).1
      = Except.ok (some (Except.ok staleResponse)) ∧
    offline.network pageRequest = none ∧
    storageEntry staleWorld.caches CACHE_NAME (localRequest offline OFFLINE_URL).key = none ∧
    ((onFetch offline pageRequest).run staleWorld).1
      = Except.ok (some (Except.ok rootPage)) := by
  refine ⟨rfl, rfl, rfl, rfl, rfl, rfl, rfl, rfl, rfl⟩

/-- C8, amended: when the fetch of an eligible request rejects, both lookups are
answered from all the stores of the cache storage, in creation order.  An entry for the
request in any store, whatever the store is called, is the answer when no earlier store
has one.  For a navigation with no entry for the request in any store, the root entry of
the first store that has one is the answer.  The built 503 response is the answer only
when no store at all has an entry to give. -/
theorem fallback_reads_every_store (env : Env) (request : Request) (w : World)
    (hm : request.method = "GET") (hp : startsWithHttp request.url.protocol = true)
    (hn : env.network request = none) :
    (∀ before name cache after entry,
      w.caches = before ++ (name, cache) :: after →
      (∀ p ∈ before, entryGet p.2 request.key = none) →
      entryGet cache request.key = some entry →
      ((onFetch env request).run w).1 = Except.ok (some (Except.ok entry))) ∧
    (request.mode = "navigate" →
      (∀ p ∈ w.caches, entryGet p.2 request.key = none) →
      ∀ before name cache after root,
      w.caches = before ++ (name, cache) :: after →
      (∀ p ∈ before, entryGet p.2 (localRequest env OFFLINE_URL).key = none) →
      entryGet cache (localRequest env OFFLINE_URL).key = some root →
      ((onFetch env request).run w).1 = Except.ok (some (Except.ok root))) ∧
    ((∀ p ∈ w.caches, entryGet p.2 request.key = none) →
      (request.mode ≠ "navigate" ∨
        ∀ p ∈ w.caches, entryGet p.2 (localRequest env OFFLINE_URL).key = none) →
      ((onFetch env request).run w).1
        = Except.ok (some (Except.ok (offlineResponse request.url)))) := by
  rw [onFetch_eligible env request w hm hp, resolveRequest_network_failed env request w hn]
  refine ⟨?_, ?_, ?_⟩
  · intro before name cache after entry hw h1 h2
    have hmatch : storageMatch w.caches request.key = some entry := by
      rw [hw]; exact storageMatch_first before after name cache _ entry h1 h2
    rw [fallbackChain_hit env request ⟨w.caches, w.log ++ [HostCall.fetch request.key]⟩
      entry hmatch]
  · intro hnav hnone before name cache after root hw h1 h2
    have hmiss : storageMatch w.caches request.key = none :=
      (storageMatch_eq_none_iff _ _).2 hnone
    have hmatch : storageMatch w.caches (localRequest env OFFLINE_URL).key = some root := by
      rw [hw]; exact storageMatch_first before after name cache _ root h1 h2
    rw [fallbackChain_root env request ⟨w.caches, w.log ++ [HostCall.fetch request.key]⟩
      root hmiss hnav hmatch]
  · intro hnone hroot
    have hmiss : storageMatch w.caches request.key = none :=
      (storageMatch_eq_none_iff _ _).2 hnone
    by_cases hnav : request.mode = "navigate"
    · rcases hroot with h | h
      · exact absurd hnav h
      · rw [fallbackChain_navigate_miss env request
          ⟨w.caches, w.log ++ [HostCall.fetch request.key]⟩ hmiss hnav
          ((storageMatch_eq_none_iff _ _).2 h)]
    · rw [fallbackChain_miss env request ⟨w.caches, w.log ++ [HostCall.fetch request.key]⟩
        hmiss hnav]

theorem fallback_reads_every_store_holds :
    (dataRequest.method = "GET" ∧ startsWithHttp dataRequest.url.protocol = true ∧
      offline.network dataRequest = none) ∧
    ("minix-cache-v0.9.0" ≠ CACHE_NAME ∧
      storageEntry staleWorld.caches CACHE_NAME dataRequest.key = none) ∧
    ((onFetch offline dataRequest).run staleWorld).1
      = Except.ok (some (Except.ok staleResponse)) :=
  ⟨⟨rfl, rfl, rfl⟩, ⟨by decide, rfl⟩,
   (fallback_reads_every_store offline dataRequest staleWorld rfl rfl rfl).1
     []
     "minix-cache-v0.9.0"
     [("https://minix.app/api/data?page=2", staleResponse), ("https://minix.app/", rootPage)]
     [("minix-cache-v1.0.0", [])] staleResponse rfl
     (fun _ hp => absurd hp (List.not_mem_nil _))
     rfl⟩

/-! ## The install and message listeners -/

theorem storageGet_storageDelete_other (s : CacheStorage) (n name : String) (h : name ≠ n) :
    storageGet (storageDelete s n) name = storageGet s name := by
  induction s with
  | nil => rfl
  | cons p rest ih =>
    obtain ⟨n1, c1⟩ := p
    unfold storageDelete at ih ⊢
    by_cases h1 : n1 = n
    · have h2 : ¬ n1 = name := fun e => h (e ▸ h1)
      simp_all [List.filter_cons, storageGet]
    · by_cases h2 : n1 = name
      · simp_all [List.filter_cons, storageGet]
      · simp_all [List.filter_cons, storageGet]

theorem storageGet_storageDelete_self (s : CacheStorage) (n : String) :
    storageGet (storageDelete s n) n = none := by
  induction s with
  | nil => rfl
  | cons p rest ih =>
    obtain ⟨n1, c1⟩ := p
    unfold storageDelete at ih ⊢
    by_cases h1 : n1 = n
    · simp_all [List.filter_cons]
    · simp_all [List.filter_cons, storageGet]

theorem onInstall_open_failed (env : Env) (w : World) (ho : env.openFails CACHE_NAME = true) :
    (onInstall env).run w =
      (Except.ok (Except.ok ()),
       { caches := w.caches, log := w.log ++ [HostCall.cachesOpen CACHE_NAME] }) := by
  simp [onInstall, Host.run, Host.settle, Host.tryCatch, Host.bind, cachesOpen, record, ho,
    Host.throw]

theorem onInstall_addAll_failed (env : Env) (w : World) (ho : env.openFails CACHE_NAME = false)
    (ha : addAllOk env CACHE_NAME PRECACHE_URLS = false) :
    (onInstall env).run w =
      (Except.ok (Except.ok ()),
       { caches := storageOpen w.caches CACHE_NAME,
         log := w.log ++ [HostCall.cachesOpen CACHE_NAME,
                          HostCall.cacheAddAll CACHE_NAME PRECACHE_URLS] }) := by
  simp [onInstall, Host.run, Host.settle, Host.tryCatch, Host.bind, cachesOpen, record, ho,
    Host.throw, modifyCaches, cacheAddAll, ha]

theorem onInstall_done (env : Env) (w : World) (ho : env.openFails CACHE_NAME = false)
    (ha : addAllOk env CACHE_NAME PRECACHE_URLS = true) :
    (onInstall env).run w =
      (Except.ok (Except.ok ()),
       { caches := (addAllFetched env PRECACHE_URLS).foldl (fun t p =>
            match p.2 with
            | some r => storagePut t CACHE_NAME p.1 r
            | none => t) (storageOpen w.caches CACHE_NAME),
         log := w.log ++ [HostCall.cachesOpen CACHE_NAME,
                          HostCall.cacheAddAll CACHE_NAME PRECACHE_URLS,
                          HostCall.skipWaiting] }) := by
  simp [onInstall, Host.run, Host.settle, Host.tryCatch, Host.bind, cachesOpen, record, ho,
    modifyCaches, cacheAddAll, ha, skipWaiting]

theorem addAllOk_false_of_fetch_failed (env : Env) (name : String) (urls : List String)
    (u : String) (hu : u ∈ urls) (hf : env.network (localRequest env u) = none) :
    addAllOk env name urls = false := by
  rw [← Bool.not_eq_true]
  intro h
  simp only [addAllOk, addAllFetched, List.all_eq_true] at h
  have := h ((localRequest env u).key, env.network (localRequest env u))
    (List.mem_map.2 ⟨u, hu, rfl⟩)
  simp [hf] at this

theorem addAllOk_false_of_put_failed (env : Env) (name : String) (urls : List String)
    (u : String) (hu : u ∈ urls) (hf : env.putFails name (localRequest env u).key = true) :
    addAllOk env name urls = false := by
  rw [← Bool.not_eq_true]
  intro h
  simp only [addAllOk, addAllFetched, List.all_eq_true] at h
  have := h ((localRequest env u).key, env.network (localRequest env u))
    (List.mem_map.2 ⟨u, hu, rfl⟩)
  cases hr : env.network (localRequest env u) with
  | none => simp [hr] at this
  | some r => simp [hr, hf] at this

/-- C7, counterexample: on a platform where `caches.open` rejects, and on one where every
pre-cache fetch rejects, the promise the `install` listener hands to `waitUntil` is
fulfilled, not rejected. -/
theorem install_failure_not_surfaced :
    onlineStorageDown.openFails CACHE_NAME = true ∧
    ((onInstall onlineStorageDown).run emptyWorld).1 = Except.ok (Except.ok ()) ∧
    offline.network (localRequest offline "/index.html") = none ∧
    ((onInstall offline).run emptyWorld).1 = Except.ok (Except.ok ()) ∧
    ¬ (∃ e, ((onInstall onlineStorageDown).run emptyWorld).1 = Except.ok (Except.error e)) ∧
    ¬ (∃ e, ((onInstall offline).run emptyWorld).1 = Except.ok (Except.error e)) := by
  refine ⟨rfl, rfl, rfl, rfl, ?_, ?_⟩
  · rintro ⟨e, he⟩
    have h : ((onInstall onlineStorageDown).run emptyWorld).1 = Except.ok (Except.ok ()) := rfl
    rw [h] at he
    cases he
  · rintro ⟨e, he⟩
    have h : ((onInstall offline).run emptyWorld).1 = Except.ok (Except.ok ()) := rfl
    rw [h] at he
    cases he

/-- C7, amended: whatever the platform answers, the promise the `install` listener hands
to `waitUntil` is fulfilled.  When `caches.open` rejects, nothing is stored and nothing
else is called.  When `cache.addAll` rejects (as it does when the fetch or the storing of
one entry of the pre-cache list fails), the store is open and empty of new entries and
`skipWaiting` is not called.  `skipWaiting` is called only after both went through. -/
theorem install_failure_is_contained (env : Env) (w : World) :
    ((onInstall env).run w).1 = Except.ok (Except.ok ()) ∧
    (env.openFails CACHE_NAME = true →
      ((onInstall env).run w).2 =
        { caches := w.caches, log := w.log ++ [HostCall.cachesOpen CACHE_NAME] }) ∧
    (env.openFails CACHE_NAME = false → addAllOk env CACHE_NAME PRECACHE_URLS = false →
      ((onInstall env).run w).2 =
        { caches := storageOpen w.caches CACHE_NAME,
          log := w.log ++ [HostCall.cachesOpen CACHE_NAME,
                           HostCall.cacheAddAll CACHE_NAME PRECACHE_URLS] }) ∧
    (env.openFails CACHE_NAME = false → addAllOk env CACHE_NAME PRECACHE_URLS = true →
      ((onInstall env).run w).2.log =
        w.log ++ [HostCall.cachesOpen CACHE_NAME,
                  HostCall.cacheAddAll CACHE_NAME PRECACHE_URLS, HostCall.skipWaiting]) ∧
    (∀ u ∈ PRECACHE_URLS,
      (env.network (localRequest env u) = none ∨
        env.putFails CACHE_NAME (localRequest env u).key = true) →
      addAllOk env CACHE_NAME PRECACHE_URLS = false) := by
  refine ⟨?_, ?_, ?_, ?_, ?_⟩
  · cases ho : env.openFails CACHE_NAME with
    | true => rw [onInstall_open_failed env w ho]
    | false =>
      cases ha : addAllOk env CACHE_NAME PRECACHE_URLS with
      | false => rw [onInstall_addAll_failed env w ho ha]
      | true => rw [onInstall_done env w ho ha]
  · intro ho
    rw [onInstall_open_failed env w ho]
  · intro ho ha
    rw [onInstall_addAll_failed env w ho ha]
  · intro ho ha
    rw [onInstall_done env w ho ha]
  · intro u hu h
    rcases h with h | h
    · exact addAllOk_false_of_fetch_failed env _ _ u hu h
    · exact addAllOk_false_of_put_failed env _ _ u hu h

theorem dataHasType_run (data : JSValue) (t : String) (w : World) :
    dataHasType data t w = (Except.ok (data.typeIs t), w) := by
  cases data with
  | undefined => simp [dataHasType, JSValue.truthy, JSValue.typeIs]
  | null => simp [dataHasType, JSValue.truthy, JSValue.typeIs]
  | boolean b =>
    cases b <;>
      simp [dataHasType, JSValue.truthy, JSValue.typeIs, getProp, Host.bind, JSValue.isString]
  | number n =>
    by_cases h : n = 0 <;>
      simp [dataHasType, JSValue.truthy, JSValue.typeIs, getProp, Host.bind, JSValue.isString, h]
  | string s =>
    by_cases h : s = "" <;>
      simp [dataHasType, JSValue.truthy, JSValue.typeIs, getProp, Host.bind, JSValue.isString, h]
  | object fields =>
    cases hf : fieldGet fields "type" with
    | none =>
      simp [dataHasType, JSValue.truthy, JSValue.typeIs, getProp, Host.bind, JSValue.isString, hf]
    | some v =>
      cases v <;>
        simp [dataHasType, JSValue.truthy, JSValue.typeIs, getProp, Host.bind,
          JSValue.isString, hf]

/-- A message has at most one type. -/
theorem typeIs_exclusive (data : JSValue) (s t : String) (hst : s ≠ t)
    (h : data.typeIs s = true) : data.typeIs t = false := by
  cases data with
  | object fields =>
    cases hf : fieldGet fields "type" with
    | none => simp [JSValue.typeIs, hf] at h
    | some v =>
      cases v with
      | string x =>
        simp only [JSValue.typeIs, hf, decide_eq_true_eq] at h
        simp [JSValue.typeIs, hf, h, hst]
      | undefined => simp [JSValue.typeIs, hf] at h
      | null => simp [JSValue.typeIs, hf] at h
      | boolean b => simp [JSValue.typeIs, hf] at h
      | number n => simp [JSValue.typeIs, hf] at h
      | object g => simp [JSValue.typeIs, hf] at h
  | undefined => simp [JSValue.typeIs] at h
  | null => simp [JSValue.typeIs] at h
  | boolean b => simp [JSValue.typeIs] at h
  | number n => simp [JSValue.typeIs] at h
  | string x => simp [JSValue.typeIs] at h

theorem onMessage_skip (env : Env) (data : JSValue) (w : World)
    (h : data.typeIs "SKIP_WAITING" = true) :
    (onMessage env data).run w =
      (Except.ok none, { caches := w.caches, log := w.log ++ [HostCall.skipWaiting] }) := by
  have h2 : data.typeIs "CLEAR_CACHE" = false :=
    typeIs_exclusive data "SKIP_WAITING" "CLEAR_CACHE" (by decide) h
  simp [onMessage, Host.run, Host.bind, dataHasType_run, h, h2, Host.detach, skipWaiting, record]

theorem onMessage_clear (env : Env) (data : JSValue) (w : World)
    (h : data.typeIs "CLEAR_CACHE" = true) (hd : env.deleteFails CACHE_NAME = false) :
    (onMessage env data).run w =
      (Except.ok (some (Except.ok ())),
       { caches := storageDelete w.caches CACHE_NAME,
         log := w.log ++ [HostCall.cachesDelete CACHE_NAME] }) := by
  have h2 : data.typeIs "SKIP_WAITING" = false :=
    typeIs_exclusive data "CLEAR_CACHE" "SKIP_WAITING" (by decide) h
  simp [onMessage, Host.run, Host.bind, dataHasType_run, h, h2, Host.settle, cachesDelete,
    record, hd, getCaches, modifyCaches]

theorem onMessage_clear_rejected (env : Env) (data : JSValue) (w : World)
    (h : data.typeIs "CLEAR_CACHE" = true) (hd : env.deleteFails CACHE_NAME = true) :
    (onMessage env data).run w =
      (Except.ok (some (Except.error "delete failed")),
       { caches := w.caches, log := w.log ++ [HostCall.cachesDelete CACHE_NAME] }) := by
  have h2 : data.typeIs "SKIP_WAITING" = false :=
    typeIs_exclusive data "CLEAR_CACHE" "SKIP_WAITING" (by decide) h
  simp [onMessage, Host.run, Host.bind, dataHasType_run, h, h2, Host.settle, cachesDelete,
    record, hd, Host.throw]

theorem onMessage_other (env : Env) (data : JSValue) (w : World)
    (h1 : data.typeIs "SKIP_WAITING" = false) (h2 : data.typeIs "CLEAR_CACHE" = false) :
    (onMessage env data).run w = (Except.ok none, w) := by
  simp [onMessage, Host.run, Host.bind, dataHasType_run, h1, h2]

/-- C10: for every message value the `message` listener returns without throwing.  The
calls it makes are decided by the `type` field: `skipWaiting` is called exactly when the
type is `SKIP_WAITING`; a `caches.delete` is called exactly when the type is
`CLEAR_CACHE`, and then it is `caches.delete` of the current store
`minix-cache-v1.0.0`, the only call made; for any other value no call is made.  The
deletion removes the current store, which is not opened again; every other store is as
it was, and with another type all stores are as they were. -/
theorem message_dispatch (env : Env) (data : JSValue) (w : World) :
    (∃ handed, ((onMessage env data).run w).1 = Except.ok handed) ∧
    (∃ calls,
      ((onMessage env data).run w).2.log = w.log ++ calls ∧
      (HostCall.skipWaiting ∈ calls ↔ data.typeIs "SKIP_WAITING" = true) ∧
      ((∃ name, HostCall.cachesDelete name ∈ calls) ↔ data.typeIs "CLEAR_CACHE" = true) ∧
      (∀ c ∈ calls, c = HostCall.skipWaiting ∨ c = HostCall.cachesDelete CACHE_NAME) ∧
      (data.typeIs "SKIP_WAITING" = false → data.typeIs "CLEAR_CACHE" = false → calls = [])) ∧
    (data.typeIs "CLEAR_CACHE" = true → env.deleteFails CACHE_NAME = false →
      ((onMessage env data).run w).2.caches = storageDelete w.caches CACHE_NAME ∧
      storageGet ((onMessage env data).run w).2.caches CACHE_NAME = none) ∧
    (data.typeIs "CLEAR_CACHE" = true → env.deleteFails CACHE_NAME = true →
      ((onMessage env data).run w).2.caches = w.caches) ∧
    (data.typeIs "CLEAR_CACHE" = false → ((onMessage env data).run w).2.caches = w.caches) ∧
    (∀ name, name ≠ CACHE_NAME →
      storageGet ((onMessage env data).run w).2.caches name = storageGet w.caches name) ∧
    CACHE_NAME = "minix-cache-v1.0.0" := by
  cases hs : data.typeIs "SKIP_WAITING" with
  | true =>
    have hc : data.typeIs "CLEAR_CACHE" = false :=
      typeIs_exclusive data "SKIP_WAITING" "CLEAR_CACHE" (by decide) hs
    rw [onMessage_skip env data w hs, hc]
    refine ⟨⟨_, rfl⟩, ⟨[HostCall.skipWaiting], rfl, by simp, by simp, by simp, by simp⟩,
      by simp, by simp, by simp, by simp, by decide⟩
  | false =>
    cases hc : data.typeIs "CLEAR_CACHE" with
    | true =>
      cases hd : env.deleteFails CACHE_NAME with
      | false =>
        rw [onMessage_clear env data w hc hd]
        refine ⟨⟨_, rfl⟩, ⟨[HostCall.cachesDelete CACHE_NAME], rfl, by simp, by simp, by simp,
          by simp⟩, ?_, by simp, by simp, ?_, by decide⟩
        · intro _ _
          exact ⟨rfl, storageGet_storageDelete_self _ _⟩
        · intro name hne
          exact storageGet_storageDelete_other _ _ _ hne
      | true =>
        rw [onMessage_clear_rejected env data w hc hd]
        refine ⟨⟨_, rfl⟩, ⟨[HostCall.cachesDelete CACHE_NAME], rfl, by simp, by simp, by simp,
          by simp⟩, by simp, by simp, by simp, by simp, by decide⟩
    | false =>
      rw [onMessage_other env data w hs hc]
      refine ⟨⟨_, rfl⟩, ⟨[], by simp, by simp, by simp, by simp, by simp⟩,
        by simp, by simp, by simp, by simp, by decide⟩

/-- Absent data, data without a type and data of another type. -/
theorem message_without_type :
    (onMessage online JSValue.null).run crowdedWorld = (Except.ok none, crowdedWorld) ∧
    (onMessage online JSValue.undefined).run crowdedWorld = (Except.ok none, crowdedWorld) ∧
    (onMessage online (JSValue.object [])).run crowdedWorld = (Except.ok none, crowdedWorld) ∧
    (onMessage online (JSValue.string "CLEAR_CACHE")).run crowdedWorld
      = (Except.ok none, crowdedWorld) ∧
    (onMessage online (JSValue.object [("type", JSValue.string "PING")])).run crowdedWorld
      = (Except.ok none, crowdedWorld) ∧
    (onMessage online (JSValue.object [("type", JSValue.string "CLEAR_CACHE")])).run crowdedWorld
      = (Except.ok (some (Except.ok ())),
         { caches := [("minix-cache-v0.9.0", [("https://minix.app/", rootPage)]),
                      ("images", [])],
           log := [HostCall.cachesDelete "minix-cache-v1.0.0"] }) := by
  refine ⟨rfl, rfl, rfl, rfl, rfl, rfl⟩

/-! ## The activate listener -/

theorem deleteIfStale_current (env : Env) (w : World) :
    deleteIfStale env CACHE_NAME w = (Except.ok none, w) := by
  simp [deleteIfStale]

theorem deleteIfStale_stale (env : Env) (n : String) (w : World) (hn : n ≠ CACHE_NAME)
    (hd : env.deleteFails n = false) :
    deleteIfStale env n w =
      (Except.ok (some (storageHas w.caches n)),
       { caches := storageDelete w.caches n, log := w.log ++ [HostCall.cachesDelete n] }) := by
  simp [deleteIfStale, hn, Host.bind, cachesDelete, record, hd, getCaches, modifyCaches]

/-- With every deletion going through, `Promise.all` over the names resolves, the stale
stores among the names are gone and the others are as they were. -/
theorem promiseAll_deleteIfStale (env : Env) (names : List String) (w : World)
    (hd : ∀ n ∈ names, env.deleteFails n = false) :
    ∃ rs, Host.promiseAll (names.map (deleteIfStale env)) w =
      (Except.ok rs,
       { caches := w.caches.filter (fun p => decide (p.1 = CACHE_NAME ∨ p.1 ∉ names)),
         log := w.log ++
           (names.filter (fun n => decide (n ≠ CACHE_NAME))).map HostCall.cachesDelete }) := by
  induction names generalizing w with
  | nil =>
    refine ⟨[], ?_⟩
    simp [Host.promiseAll, Host.pure]
  | cons n rest ih =>
    have hrest : ∀ m ∈ rest, env.deleteFails m = false :=
      fun m hm => hd m (List.mem_cons_of_mem _ hm)
    by_cases hn : n = CACHE_NAME
    · subst hn
      obtain ⟨rs, hrs⟩ := ih w hrest
      refine ⟨none :: rs, ?_⟩
      simp only [List.map_cons, Host.promiseAll, deleteIfStale_current, hrs]
      simp
      apply List.filter_congr
      intro p _
      by_cases hp : p.1 = CACHE_NAME <;> simp [hp]
    · have hdn : env.deleteFails n = false := hd n (List.mem_cons_self _ _)
      obtain ⟨rs, hrs⟩ := ih
        { caches := storageDelete w.caches n, log := w.log ++ [HostCall.cachesDelete n] } hrest
      refine ⟨some (storageHas w.caches n) :: rs, ?_⟩
      simp only [List.map_cons, Host.promiseAll, deleteIfStale_stale env n w hn hdn, hrs]
      simp [storageDelete, List.filter_filter, hn]
      apply List.filter_congr
      intro p _
      by_cases hp : p.1 = CACHE_NAME
      · have : ¬ p.1 = n := fun e => hn (e ▸ hp)
        simp [hp, this]
        exact fun e => hn e.symm
      · by_cases hpn : p.1 = n
        · simp [hp, hpn, hn]
        · simp [hp, hpn]

theorem onActivate_run (env : Env) (w : World)
    (hd : ∀ n ∈ storageKeys w.caches, env.deleteFails n = false) :
    (onActivate env).run w =
      (Except.ok (Except.ok ()),
       { caches := w.caches.filter (fun p => decide (p.1 = CACHE_NAME)),
         log := w.log ++ HostCall.cachesKeys ::
           ((storageKeys w.caches).filter (fun n => decide (n ≠ CACHE_NAME))).map
             HostCall.cachesDelete ++ [HostCall.clientsClaim] }) := by
  obtain ⟨rs, hrs⟩ := promiseAll_deleteIfStale env (storageKeys w.caches)
    { caches := w.caches, log := w.log ++ [HostCall.cachesKeys] } hd
  have hfilter : w.caches.filter (fun p => decide (p.1 = CACHE_NAME ∨ p.1 ∉ storageKeys w.caches))
      = w.caches.filter (fun p => decide (p.1 = CACHE_NAME)) := by
    apply List.filter_congr
    intro p hp
    have hmem : p.1 ∈ storageKeys w.caches := List.mem_map.2 ⟨p, hp, rfl⟩
    simp [hmem]
  simp only [hfilter] at hrs
  simp [onActivate, Host.run, Host.settle, Host.tryCatch, Host.bind, cachesKeys, record,
    getCaches, hrs, clientsClaim]

theorem storageKeys_filter_current (s : CacheStorage) :
    storageKeys (s.filter (fun p => decide (p.1 = CACHE_NAME)))
      = (storageKeys s).filter (fun n => decide (n = CACHE_NAME)) := by
  induction s with
  | nil => rfl
  | cons p rest ih =>
    unfold storageKeys at ih ⊢
    by_cases h : p.1 = CACHE_NAME <;> simp [List.filter_cons, h, ih]

theorem storageGet_filter_current (s : CacheStorage) :
    storageGet (s.filter (fun p => decide (p.1 = CACHE_NAME))) CACHE_NAME
      = storageGet s CACHE_NAME := by
  induction s with
  | nil => rfl
  | cons p rest ih =>
    obtain ⟨n, c⟩ := p
    by_cases h : n = CACHE_NAME <;> simp [List.filter_cons, h, ih, storageGet]

theorem storageGet_filter_current_other (s : CacheStorage) (name : String)
    (hne : name ≠ CACHE_NAME) :
    storageGet (s.filter (fun p => decide (p.1 = CACHE_NAME))) name = none := by
  induction s with
  | nil => rfl
  | cons p rest ih =>
    obtain ⟨n, c⟩ := p
    by_cases h : n = CACHE_NAME
    · have h2 : ¬ CACHE_NAME = name := fun e => hne e.symm
      simp [List.filter_cons, h, ih, storageGet, h2]
    · simp [List.filter_cons, h, ih]

theorem filter_eq_singleton (names : List String) (a : String) (hnd : names.Nodup)
    (ha : a ∈ names) : names.filter (fun n => decide (n = a)) = [a] := by
  induction names with
  | nil => simp at ha
  | cons n rest ih =>
    have hn : n ∉ rest := (List.nodup_cons.1 hnd).1
    have hrest : rest.Nodup := (List.nodup_cons.1 hnd).2
    by_cases h : n = a
    · subst h
      have hnone : rest.filter (fun m => decide (m = n)) = [] := by
        apply List.filter_eq_nil_iff.2
        intro m hm
        simp only [decide_eq_true_eq]
        intro e
        exact hn (e ▸ hm)
      simp [List.filter_cons, hnone]
    · have ha2 : a ∈ rest := by
        rcases List.mem_cons.1 ha with e | e
        · exact absurd e.symm h
        · exact e
      simp [List.filter_cons, h, ih hrest ha2]

/-- C6: with every deletion going through, the `activate` listener leaves exactly the
stores named `minix-cache-v1.0.0`, with their entries as they were, deletes every other
name, and then claims the clients; the promise it hands to `waitUntil` is fulfilled.  When
the names are distinct and the current one is among them, exactly that one name remains.
A second run right after the first is fulfilled too and leaves the stores as the first
left them. -/
theorem activate_keeps_current_only (env : Env) (w : World)
    (hd : ∀ n ∈ storageKeys w.caches, env.deleteFails n = false) :
    ((onActivate env).run w).1 = Except.ok (Except.ok ()) ∧
    ((onActivate env).run w).2.caches = w.caches.filter (fun p => decide (p.1 = CACHE_NAME)) ∧
    storageKeys ((onActivate env).run w).2.caches
      = (storageKeys w.caches).filter (fun n => decide (n = CACHE_NAME)) ∧
    (∀ name, name ≠ CACHE_NAME → storageGet ((onActivate env).run w).2.caches name = none) ∧
    storageGet ((onActivate env).run w).2.caches CACHE_NAME = storageGet w.caches CACHE_NAME ∧
    ((onActivate env).run w).2.log =
      w.log ++ HostCall.cachesKeys ::
        ((storageKeys w.caches).filter (fun n => decide (n ≠ CACHE_NAME))).map
          HostCall.cachesDelete ++ [HostCall.clientsClaim] ∧
    ((storageKeys w.caches).Nodup → CACHE_NAME ∈ storageKeys w.caches →
      storageKeys ((onActivate env).run w).2.caches = [CACHE_NAME]) ∧
    ((onActivate env).run ((onActivate env).run w).2).1 = Except.ok (Except.ok ()) ∧
    ((onActivate env).run ((onActivate env).run w).2).2.caches
      = ((onActivate env).run w).2.caches ∧
    CACHE_NAME = "minix-cache-v1.0.0" := by
  have hrun := onActivate_run env w hd
  have hd2 : ∀ n ∈ storageKeys ((onActivate env).run w).2.caches, env.deleteFails n = false := by
    intro n hn
    rw [hrun] at hn
    simp only [storageKeys_filter_current] at hn
    exact hd n (List.mem_filter.1 hn).1
  have hrun2 := onActivate_run env ((onActivate env).run w).2 hd2
  rw [hrun2]
  rw [hrun]
  refine ⟨rfl, rfl, storageKeys_filter_current _, ?_, storageGet_filter_current _, rfl, ?_,
    rfl, ?_, by decide⟩
  · intro name hne
    exact storageGet_filter_current_other _ name hne
  · intro hnd hmem
    simp only [storageKeys_filter_current]
    exact filter_eq_singleton _ _ hnd hmem
  · simp [List.filter_filter]

theorem activate_keeps_current_only_holds :
    (∀ n ∈ storageKeys crowdedWorld.caches, online.deleteFails n = false) ∧
    (onActivate online).run crowdedWorld =
      (Except.ok (Except.ok ()),
       { caches := [("minix-cache-v1.0.0",
            [("https://minix.app/", rootPage),
             ("https://minix.app/api/data?page=2", staleResponse)])],
         log := [HostCall.cachesKeys, HostCall.cachesDelete "minix-cache-v0.9.0",
                 HostCall.cachesDelete "images", HostCall.clientsClaim] }) ∧
    storageKeys ((onActivate online).run crowdedWorld).2.caches = [CACHE_NAME] :=
  ⟨fun _ _ => rfl, rfl,
   (activate_keeps_current_only online crowdedWorld (fun _ _ => rfl)).2.2.2.2.2.2.1
     (by decide) (by decide)⟩

end Minix
